import Mathlib

/-!
# Verification of the TLObjects generator

A shallow embedding of `tlobjects_generator.py`: the per-Definition code
generator (`write_onsend_code`, `write_onresponse_code`, the `on_send` /
`on_response` bodies assembled by `generate_tlobjecs`), the constructor
parameter list built at lines 47-60, and the `all_tlobjects.py` registry
emitted at lines 116-140.

The generator emits Python source text.  We embed the *emitted* routines as
step lists (`SendStep` / `ReadStep`) that mirror, line for line, the
`builder.writeln` calls of the source, and give those steps their runtime
meaning through interpreters.  The low-level `BinaryWriter` / `BinaryReader`
collaborators (`write_int`, `read_int`, `tgread_string`, `tgread_object`, ...)
are not part of this repository's source; following the spec they are external
collaborators assumed correct, so the wire is modelled as a stream of typed
tokens (`WireItem`) on which each primitive write is inverted exactly by the
matching primitive read.
-/

namespace TLGen

/-- One field of a parsed Definition, mirroring the attributes of the parser's
argument objects that `tlobjects_generator.py` reads: `name`, `type`
(a plain string, matched literally by the generator's `elif` chain),
`is_vector`, `is_flag`, `flag_index`, `flag_indicator`, `generic_definition`
and `is_generic`. -/
structure Argument where
  name : String
  argType : String
  is_vector : Bool
  is_flag : Bool
  flag_index : Nat
  flag_indicator : Bool
  generic_definition : Bool
  is_generic : Bool
deriving DecidableEq, Repr

/-- One parsed Definition as consumed by `generate_tlobjecs`: a name, an
optional namespace, the 32-bit constructor id (`tlobject.id`), the
functions/types partition bit and the ordered argument list. -/
structure TLObject where
  name : String
  tlNamespace : Option String
  id : Int
  is_function : Bool
  args : List Argument
deriving DecidableEq, Repr

/-- Runtime values held in the generated objects' fields.  `vnone` is Python's
`None` (an absent optional field); `vobj` is a value of a custom/generic type,
opaque here because its own encoder is reached only through delegation
(`x.write(writer)` / `reader.tgread_object()`), which the spec places at the
collaborator interface; `vdouble`'s payload is an opaque token for the same
reason (the IEEE encoding lives in the out-of-scope writer). -/
inductive Value where
  | vnone
  | vint (n : Int)
  | vlong (n : Int)
  | vlarge (n : Int)
  | vdouble (x : Int)
  | vstr (s : String)
  | vbool (b : Bool)
  | vbytes (bs : List Int)
  | vobj (o : Int)
  | vlist (l : List Value)

/-- Python's `x is not None` test, negated: `true` exactly on `vnone`. -/
def Value.isNone : Value → Bool
  | .vnone => true
  | _ => false

/-- Shape discriminators for the writer's primitive calls: the write call the
generator emits for each primitive type succeeds exactly on values of the
corresponding shape (any other shape is a Python runtime error). -/
def Value.isInt : Value → Bool
  | .vint _ => true
  | _ => false

def Value.isLong : Value → Bool
  | .vlong _ => true
  | _ => false

def Value.isLarge : Value → Bool
  | .vlarge _ => true
  | _ => false

def Value.isDouble : Value → Bool
  | .vdouble _ => true
  | _ => false

def Value.isStr : Value → Bool
  | .vstr _ => true
  | _ => false

def Value.isBool : Value → Bool
  | .vbool _ => true
  | _ => false

/-- `true` pseudo-type values: only Python `True` (its write emits a fixed
sentinel consuming no value, and its read yields `True` on that sentinel). -/
def Value.isTrueLit : Value → Bool
  | .vbool b => b
  | _ => false

def Value.isBytes : Value → Bool
  | .vbytes _ => true
  | _ => false

def Value.isObj : Value → Bool
  | .vobj _ => true
  | _ => false

def Value.isList : Value → Bool
  | .vlist _ => true
  | _ => false

/-- The element list of a vector value (`[]` on any other shape; only used
behind an `isList` test). -/
def Value.listOf : Value → List Value
  | .vlist l => l
  | _ => []

/-- Modelled from the spec: the wire produced by the out-of-scope
`BinaryWriter` collaborator (write_int / write_long / write_large_int /
write_double / tgwrite_string / tgwrite_bool / write, plus the whole object
emitted by a delegated `x.write(writer)` call).  The spec assumes each
primitive encode is inverted exactly by the matching primitive decode, so the
stream is a list of typed tokens rather than raw bytes. -/
inductive WireItem where
  | wInt (n : Int)
  | wLong (n : Int)
  | wLarge (bits : Nat) (n : Int)
  | wDouble (x : Int)
  | wStr (s : String)
  | wBool (b : Bool)
  | wBytes (bs : List Int)
  | wObj (o : Int)
deriving DecidableEq, Repr

/-- One generated `on_send` statement (group), mirroring the lines emitted by
`write_onsend_code`:
* `writeConst n` — `writer.write_int(<literal>)` (the constructor id at the
  top of `on_send`, the vector sentinel, and the `true` pseudo-type sentinel);
* `writeFlags pairs` — the `flags = 0; flags |= (1 << i) if self.x is not None
  else 0; ...; writer.write_int(flags)` block emitted for a flag indicator,
  with `pairs` the `(flag_index, name)` of every `is_flag` argument;
* the `write*V` leaves — the primitive writer call applied to the current
  name (`self.argname`, or the loop item inside a vector);
* `vecFrame inner` — the vector block: sentinel, `write_int(len(...))` and the
  `for ..._item in ...:` loop whose body is `inner`;
* `flagGuard inner` — the `if <name> is not None:` block around `inner`. -/
inductive SendStep where
  | writeConst (n : Int)
  | writeFlags (pairs : List (Nat × String))
  | writeIntV
  | writeLongV
  | writeLargeV (bits : Nat)
  | writeDoubleV
  | writeStringV
  | writeBoolV
  | writeBytesV
  | writeObjV
  | vecFrame (inner : List SendStep)
  | flagGuard (inner : List SendStep)

/-- One generated `on_response` statement (group), mirroring the lines emitted
by `write_onresponse_code`:
* `readFlags` — `flags = reader.read_int()`;
* the `read*V` leaves — `<name> = reader.read_...()`; `readTrueV` is
  `<name> = reader.read_int() == 0x3fedd339`;
* `readObjV` — `<name> = reader.tgread_object(reader)` (registry dispatch);
* `vecRead inner` — the vector block: discard marker, `<name> = []`,
  `<name>_len = reader.read_int()`, `for _ in range(<name>_len):` running
  `inner` and appending the item;
* `flagGuardR i inner` — the `if (flags & (1 << i)) != 0:` block. -/
inductive ReadStep where
  | readFlags
  | readIntV
  | readLongV
  | readLargeV (bits : Nat)
  | readDoubleV
  | readStringV
  | readBoolV
  | readTrueV
  | readBytesV
  | readObjV
  | vecRead (inner : List ReadStep)
  | flagGuardR (i : Nat) (inner : List ReadStep)

/-- The `(flag_index, name)` pairs the generator walks when computing the
flags bitmask: `for flag in args: if flag.is_flag: ...`
(lines 204-207 of the source). -/
def flagPairs (args : List Argument) : List (Nat × String) :=
  (args.filter (fun a => a.is_flag)).map (fun a => (a.flag_index, a.name))

/-- The `elif` chain of `write_onsend_code` (source lines 212-241): the write
statement picked for a scalar (non-vector, non-indicator) argument by literal
comparison of its type string, falling through to custom-type delegation. -/
def scalarSendOf (t : String) : SendStep :=
  if t = "int" then SendStep.writeIntV
  else if t = "long" then SendStep.writeLongV
  else if t = "int128" then SendStep.writeLargeV 128
  else if t = "int256" then SendStep.writeLargeV 256
  else if t = "double" then SendStep.writeDoubleV
  else if t = "string" then SendStep.writeStringV
  else if t = "Bool" then SendStep.writeBoolV
  else if t = "true" then SendStep.writeConst 0x3fedd339
  else if t = "bytes" then SendStep.writeBytesV
  else SendStep.writeObjV

/-- The `elif` chain of `write_onresponse_code` (source lines 288-317): the
read statement picked for a scalar argument by literal comparison of its type
string, falling through to registry-dispatched custom-type decoding. -/
def scalarReadOf (t : String) : ReadStep :=
  if t = "int" then ReadStep.readIntV
  else if t = "long" then ReadStep.readLongV
  else if t = "int128" then ReadStep.readLargeV 128
  else if t = "int256" then ReadStep.readLargeV 256
  else if t = "double" then ReadStep.readDoubleV
  else if t = "string" then ReadStep.readStringV
  else if t = "Bool" then ReadStep.readBoolV
  else if t = "true" then ReadStep.readTrueV
  else if t = "bytes" then ReadStep.readBytesV
  else ReadStep.readObjV

/-- `write_onsend_code(builder, arg, args)`: the `on_send` statements emitted
for one argument, together with the argument object as it stands after the
call (the source temporarily sets `arg.is_vector = False` around the one
recursive call for the vector element and then assigns `True` back, so the
post-state is returned explicitly). -/
def write_onsend_code (arg : Argument) (args : List Argument) :
    List SendStep × Argument :=
  if arg.generic_definition then ([], arg)
  else
    let core :=
      if h : arg.is_vector then
        let r := write_onsend_code { arg with is_vector := false } args
        ([SendStep.vecFrame r.1], { r.2 with is_vector := true })
      else if arg.flag_indicator then
        ([SendStep.writeFlags (flagPairs args)], arg)
      else ([scalarSendOf arg.argType], arg)
    if arg.is_flag then ([SendStep.flagGuard core.1], core.2) else core
termination_by (if arg.is_vector then 1 else 0)
decreasing_by simp [h]

/-- `write_onresponse_code(builder, arg, args)`: the `on_response` statements
emitted for one argument, with the argument's post-state (as for
`write_onsend_code`, the source mutates and restores `is_vector`). -/
def write_onresponse_code (arg : Argument) (args : List Argument) :
    List ReadStep × Argument :=
  if arg.generic_definition then ([], arg)
  else
    let core :=
      if h : arg.is_vector then
        let r := write_onresponse_code { arg with is_vector := false } args
        ([ReadStep.vecRead r.1], { r.2 with is_vector := true })
      else if arg.flag_indicator then
        ([ReadStep.readFlags], arg)
      else ([scalarReadOf arg.argType], arg)
    if arg.is_flag then
      ([ReadStep.flagGuardR arg.flag_index core.1], core.2)
    else core
termination_by (if arg.is_vector then 1 else 0)
decreasing_by simp [h]

/-- The full `on_send(self, writer)` body (source lines 94-101): first
`writer.write_int(<constructor id>)`, then the `write_onsend_code` output for
every argument in declaration order. -/
def onSendSteps (t : TLObject) : List SendStep :=
  SendStep.writeConst t.id ::
    t.args.flatMap (fun a => (write_onsend_code a t.args).1)

/-- The body of a generated `on_response(self, reader)` (source lines
103-114): a function Definition delegates entirely to
`self.result = reader.tgread_object()`; any other Definition reads its
arguments directly (an empty argument list emits `pass`, i.e. no steps). -/
inductive RespBody where
  | resultFromRegistry
  | argSteps (groups : List (String × List ReadStep))

/-- `on_response` as assembled by `generate_tlobjecs`. -/
def onResponseBody (t : TLObject) : RespBody :=
  if t.is_function then RespBody.resultFromRegistry
  else RespBody.argSteps
    (t.args.map (fun a => (a.name, (write_onresponse_code a t.args).1)))

/-- The predicate by which the constructor parameters are ordered,
`sorted(..., key=lambda x: x.is_flag)` at source line 48: Python's `sorted`
is a stable sort by the boolean key `is_flag` (`False` before `True`). -/
def flagLE (a b : Argument) : Bool := !a.is_flag || b.is_flag

/-- The `__init__` parameter list built at source lines 47-54: drop flag
indicators, stably sort the rest so non-flag arguments come first, then drop
generic definitions and render each flag argument as `name=None`. -/
def initParams (t : TLObject) : List String :=
  (((t.args.filter (fun a => !a.flag_indicator)).mergeSort flagLE).filter
      (fun a => !a.flag_indicator && !a.generic_definition)).map
    (fun a => if a.is_flag then a.name ++ "=None" else a.name)

/-- The entries of the `tlobjects = { hex(id): module.Class, ... }` dictionary
written to `all_tlobjects.py` (source lines 116-140): one entry per parsed
Definition, in declaration order, keyed by its constructor id.  The dict value
(the generated class) is modelled by the Definition itself.  The source builds
this unconditionally — there is no duplicate-id check anywhere in the file. -/
def all_tlobjects_entries (ts : List TLObject) : List (Int × TLObject) :=
  ts.map (fun t => (t.id, t))

/-! ## Runtime semantics of the emitted code -/

/-- The value of the local `flags` variable computed by the emitted block
`flags = 0; flags |= (1 << i) if self.x is not None else 0; ...`. -/
def computeFlags (env : String → Value) (pairs : List (Nat × String)) : Nat :=
  pairs.foldl
    (fun acc p => if (env p.2).isNone then acc else acc ||| (1 <<< p.1)) 0

/-- The emitted `for ..._item in <name>:` loop: run the element statements
`g` once per element, concatenating what the writer receives. -/
def runSendLoop (g : Value → Option (List WireItem)) :
    List Value → Option (List WireItem)
  | [] => some []
  | x :: xs =>
    match g x with
    | none => none
    | some w =>
      match runSendLoop g xs with
      | none => none
      | some ws => some (w ++ ws)

mutual
/-- Runtime meaning of one emitted `on_send` statement: `env` resolves the
`self.x` references of the flags block, `v` is the value the statement's
current name denotes (`self.argname`, or the loop item inside a vector).
`none` models a Python runtime error (e.g. `write_int` applied to a value of
the wrong shape, or `len()` of a non-list). -/
def runSendStep (env : String → Value) : SendStep → Value → Option (List WireItem)
  | .writeConst n, _ => some [WireItem.wInt n]
  | .writeFlags pairs, _ =>
    some [WireItem.wInt (Int.ofNat (computeFlags env pairs))]
  | .writeIntV, v =>
    match v with | .vint n => some [WireItem.wInt n] | _ => none
  | .writeLongV, v =>
    match v with | .vlong n => some [WireItem.wLong n] | _ => none
  | .writeLargeV bits, v =>
    match v with | .vlarge n => some [WireItem.wLarge bits n] | _ => none
  | .writeDoubleV, v =>
    match v with | .vdouble x => some [WireItem.wDouble x] | _ => none
  | .writeStringV, v =>
    match v with | .vstr s => some [WireItem.wStr s] | _ => none
  | .writeBoolV, v =>
    match v with | .vbool b => some [WireItem.wBool b] | _ => none
  | .writeBytesV, v =>
    match v with | .vbytes bs => some [WireItem.wBytes bs] | _ => none
  | .writeObjV, v =>
    match v with | .vobj o => some [WireItem.wObj o] | _ => none
  | .vecFrame inner, v =>
    match v with
    | .vlist l =>
      match runSendLoop (fun x => runSendGroup env inner x) l with
      | some ws => some (WireItem.wInt 0x1cb5c415 ::
          WireItem.wInt (Int.ofNat l.length) :: ws)
      | none => none
    | _ => none
  | .flagGuard inner, v =>
    if v.isNone then some [] else runSendGroup env inner v

/-- Runtime meaning of a list of emitted `on_send` statements, in order. -/
def runSendGroup (env : String → Value) : List SendStep → Value → Option (List WireItem)
  | [], _ => some []
  | s :: rest, v =>
    match runSendStep env s v with
    | none => none
    | some w =>
      match runSendGroup env rest v with
      | none => none
      | some ws => some (w ++ ws)
end

/-- The emitted `for _ in range(<name>_len):` loop: run the element
statements `g` `n` times, collecting the appended items in order.  The local
`flags` variable (an `Option Nat`, `none` while still unassigned) and the
remaining stream are threaded through.  An iteration whose statements assign
no item is a Python `NameError` on the `append` line, hence `none`. -/
def runRespLoop
    (g : Option Nat → List WireItem →
      Option (Option Value × Option Nat × List WireItem)) :
    Nat → Option Nat → List WireItem →
    Option (List Value × Option Nat × List WireItem)
  | 0, fs, s => some ([], fs, s)
  | n+1, fs, s =>
    match g fs s with
    | some (some v, f1, s1) =>
      match runRespLoop g n f1 s1 with
      | some (vs, f2, s2) => some (v :: vs, f2, s2)
      | none => none
    | _ => none

mutual
/-- Runtime meaning of one emitted `on_response` statement: given the local
`flags` variable (`none` while unassigned — using it then is a `NameError`,
hence `none`) and the remaining stream, produce the value assigned to the
statement's current name (if any), the new `flags`, and the rest of the
stream.  `none` models a Python runtime error or a reader failure. -/
def runRespStep : ReadStep → Option Nat → List WireItem →
    Option (Option Value × Option Nat × List WireItem)
  | .readFlags, _, s =>
    match s with
    | WireItem.wInt n :: rest => some (none, some n.toNat, rest)
    | _ => none
  | .readIntV, fs, s =>
    match s with
    | WireItem.wInt n :: rest => some (some (Value.vint n), fs, rest)
    | _ => none
  | .readLongV, fs, s =>
    match s with
    | WireItem.wLong n :: rest => some (some (Value.vlong n), fs, rest)
    | _ => none
  | .readLargeV bits, fs, s =>
    match s with
    | WireItem.wLarge b n :: rest =>
      if b = bits then some (some (Value.vlarge n), fs, rest) else none
    | _ => none
  | .readDoubleV, fs, s =>
    match s with
    | WireItem.wDouble x :: rest => some (some (Value.vdouble x), fs, rest)
    | _ => none
  | .readStringV, fs, s =>
    match s with
    | WireItem.wStr str :: rest => some (some (Value.vstr str), fs, rest)
    | _ => none
  | .readBoolV, fs, s =>
    match s with
    | WireItem.wBool b :: rest => some (some (Value.vbool b), fs, rest)
    | _ => none
  | .readTrueV, fs, s =>
    match s with
    | WireItem.wInt n :: rest =>
      some (some (Value.vbool (n == 0x3fedd339)), fs, rest)
    | _ => none
  | .readBytesV, fs, s =>
    match s with
    | WireItem.wBytes bs :: rest => some (some (Value.vbytes bs), fs, rest)
    | _ => none
  | .readObjV, fs, s =>
    match s with
    | WireItem.wObj o :: rest => some (some (Value.vobj o), fs, rest)
    | _ => none
  | .vecRead inner, fs, s =>
    match s with
    | WireItem.wInt _ :: WireItem.wInt len :: rest =>
      match runRespLoop (fun f str => runRespGroup inner f str) len.toNat fs rest with
      | some (vs, f2, s2) => some (some (Value.vlist vs), f2, s2)
      | none => none
    | _ => none
  | .flagGuardR i inner, fs, s =>
    match fs with
    | none => none
    | some f =>
      if (f &&& (1 <<< i)) ≠ 0 then runRespGroup inner (some f) s
      else some (none, some f, s)

/-- Runtime meaning of a list of emitted `on_response` statements, in order;
a later assignment to the current name shadows an earlier one. -/
def runRespGroup : List ReadStep → Option Nat → List WireItem →
    Option (Option Value × Option Nat × List WireItem)
  | [], fs, s => some (none, fs, s)
  | st :: rest, fs, s =>
    match runRespStep st fs s with
    | none => none
    | some (v1, f1, s1) =>
      match runRespGroup rest f1 s1 with
      | none => none
      | some (v2, f2, s2) =>
        some ((match v2 with | some w => some w | none => v1), f2, s2)
end

/-- Functional update of an object's attribute environment. -/
def setVar (env : String → Value) (nm : String) (v : Value) : String → Value :=
  fun x => if x = nm then v else env x

/-- Run the emitted `on_send` statements of each argument in declaration
order, each against the value of its own `self.<name>`. -/
def runSendArgList (env : String → Value) (all : List Argument) :
    List Argument → Option (List WireItem)
  | [] => some []
  | a :: rest =>
    match runSendGroup env (write_onsend_code a all).1 (env a.name) with
    | none => none
    | some w =>
      match runSendArgList env all rest with
      | none => none
      | some ws => some (w ++ ws)

/-- The full generated `on_send`: the constructor id first, then every
argument in declaration order. -/
def runSend (t : TLObject) (env : String → Value) : Option (List WireItem) :=
  match runSendArgList env t.args t.args with
  | some ws => some (WireItem.wInt t.id :: ws)
  | none => none

/-- Run the emitted `on_response` statements of each argument in declaration
order, updating `self.<name>` with each assigned value. -/
def runRespArgList : (String → Value) → List (String × List ReadStep) →
    Option Nat → List WireItem →
    Option ((String → Value) × Option Nat × List WireItem)
  | env, [], fs, s => some (env, fs, s)
  | env, (nm, grp) :: rest, fs, s =>
    match runRespGroup grp fs s with
    | none => none
    | some (asn, f1, s1) =>
      runRespArgList
        (match asn with | some v => setVar env nm v | none => env) rest f1 s1

/-- The full generated `on_response`, starting from the attribute state of
the freshly constructed object.  A function Definition runs
`self.result = reader.tgread_object()` — modelled from the spec: registry
dispatch reads the inner constructor id, resolves the type and decodes it,
i.e. it consumes the delegated object's whole emission as one token. -/
def runResponse (t : TLObject) (env : String → Value) (stream : List WireItem) :
    Option ((String → Value) × List WireItem) :=
  match onResponseBody t with
  | RespBody.resultFromRegistry =>
    match stream with
    | WireItem.wObj o :: rest => some (setVar env "result" (Value.vobj o), rest)
    | _ => none
  | RespBody.argSteps groups =>
    match runRespArgList env groups none stream with
    | some (e, _, rest) => some (e, rest)
    | none => none

/-! ## Admissible assignments and well-formed Definitions -/

/-- Does a present value have the shape the writer call picked by the
generator's `elif` chain requires for this type string?  The chain order
mirrors `write_onsend_code`; the final case is custom-type delegation.  The
`true` pseudo-type admits only Python `True`: its write emits a fixed
sentinel consuming no value, and its read yields `True` on that sentinel. -/
def scalarMatches (t : String) (v : Value) : Bool :=
  if t = "int" then v.isInt
  else if t = "long" then v.isLong
  else if t = "int128" then v.isLarge
  else if t = "int256" then v.isLarge
  else if t = "double" then v.isDouble
  else if t = "string" then v.isStr
  else if t = "Bool" then v.isBool
  else if t = "true" then v.isTrueLit
  else if t = "bytes" then v.isBytes
  else v.isObj

/-- A present value admissible for an argument: a list of matching elements
for a vector argument, a matching scalar otherwise. -/
def argMatches (a : Argument) (v : Value) : Bool :=
  if a.is_vector then v.isList && v.listOf.all (scalarMatches a.argType)
  else scalarMatches a.argType v

/-- Admissible field value: an optional (`is_flag`) argument may also be
`None`. -/
def argValueOk (a : Argument) (v : Value) : Bool :=
  if a.is_flag then v.isNone || argMatches a v else argMatches a v

/-- An admissible assignment of a Definition's arguments: every value-carrying
argument holds an admissible value. -/
def envAdmissible (args : List Argument) (env : String → Value) : Prop :=
  ∀ a ∈ args, a.flag_indicator = false → a.generic_definition = false →
    argValueOk a (env a.name) = true

/-- Per-argument shape facts guaranteed by the parser: a flag indicator
(`flags:#`) is itself neither optional, nor a vector, nor a generic
definition; a generic definition (`{X:Type}`) is neither optional nor a
vector. -/
def argShapeOk (a : Argument) : Bool :=
  (!a.flag_indicator || (!a.is_flag && !a.is_vector && !a.generic_definition)) &&
  (!a.generic_definition || (!a.is_flag && !a.is_vector))

/-- Every flag-gated argument is preceded by a flag indicator (`seen` tracks
whether an indicator occurred already). -/
def indicatorFirst : Bool → List Argument → Bool
  | _, [] => true
  | seen, a :: rest =>
    (!a.is_flag || seen) && indicatorFirst (seen || a.flag_indicator) rest

/-- Well-formed argument list (the spec's Definition invariants): distinct
argument names, distinct flag indices among optional arguments, per-argument
shape facts, and the flag indicator preceding every optional argument. -/
def wfArgs (args : List Argument) : Prop :=
  (args.map (fun a => a.name)).Nodup ∧
  ((args.filter (fun a => a.is_flag)).map (fun a => a.flag_index)).Nodup ∧
  args.all argShapeOk = true ∧
  indicatorFirst false args = true

/-! ## Bitmask lemmas -/

theorem land_one_shift_ne (f i : Nat) : (f &&& (1 <<< i) ≠ 0) ↔ f.testBit i := by
  rw [Nat.one_shiftLeft]
  constructor
  · intro h
    obtain ⟨j, hj⟩ := Nat.ne_zero_implies_bit_true h
    rw [Nat.testBit_and, Nat.testBit_two_pow] at hj
    rcases Bool.and_eq_true .. |>.mp hj with ⟨hfj, hij⟩
    have : i = j := by simpa using hij
    rwa [this]
  · intro h h0
    have h1 : (f &&& 2 ^ i).testBit i = false := by rw [h0]; simp
    rw [Nat.testBit_and, h, Nat.testBit_two_pow] at h1
    simp at h1

theorem computeFlags_testBit_aux (env : String → Value)
    (pairs : List (Nat × String)) (acc i : Nat) :
    (pairs.foldl
        (fun acc p => if (env p.2).isNone then acc else acc ||| (1 <<< p.1))
        acc).testBit i =
      (acc.testBit i || pairs.any (fun p => p.1 == i && !(env p.2).isNone)) := by
  induction pairs generalizing acc with
  | nil => simp
  | cons p rest ih =>
    simp only [List.foldl_cons, List.any_cons]
    cases hp : (env p.2).isNone <;> rw [ih] <;>
      cases hacc : acc.testBit i <;> cases hpi : p.1 == i <;>
        simp_all [Nat.testBit_or, Nat.one_shiftLeft, Nat.testBit_two_pow]

theorem computeFlags_testBit (env : String → Value)
    (pairs : List (Nat × String)) (i : Nat) :
    (computeFlags env pairs).testBit i =
      pairs.any (fun p => p.1 == i && !(env p.2).isNone) := by
  rw [computeFlags, computeFlags_testBit_aux]
  simp

/-- With distinct flag indices, bit `flag_index` of the computed bitmask is
exactly the presence of that optional argument's value. -/
theorem computeFlags_testBit_flag (args : List Argument) (env : String → Value)
    (a : Argument) (hmem : a ∈ args) (hf : a.is_flag = true)
    (hnd : ((args.filter (fun b => b.is_flag)).map (fun b => b.flag_index)).Nodup) :
    (computeFlags env (flagPairs args)).testBit a.flag_index =
      !(env a.name).isNone := by
  rw [computeFlags_testBit]
  have hmemf : a ∈ args.filter (fun b => b.is_flag) :=
    List.mem_filter.mpr ⟨hmem, hf⟩
  cases hpres : (env a.name).isNone with
  | false =>
    simp only [Bool.not_false]
    refine List.any_eq_true.mpr ⟨(a.flag_index, a.name), ?_, ?_⟩
    · exact List.mem_map.mpr ⟨a, hmemf, rfl⟩
    · simp [hpres]
  | true =>
    simp only [Bool.not_true]
    apply List.any_eq_false.mpr
    rintro ⟨j, nm⟩ hjm
    obtain ⟨b, hbmem, hbeq⟩ := List.mem_map.mp hjm
    cases hbeq
    simp only [Bool.and_eq_true, beq_iff_eq, not_and]
    intro hji
    have hb : b = a :=
      List.inj_on_of_nodup_map (f := fun c : Argument => c.flag_index) hnd
        hbmem hmemf hji
    rw [hb, hpres]
    simp

/-! ## Shape lemmas for the generated per-argument code -/

theorem onsend_gd (a : Argument) (args : List Argument)
    (h : a.generic_definition = true) :
    write_onsend_code a args = ([], a) := by
  rw [write_onsend_code]; simp [h]

theorem onresp_gd (a : Argument) (args : List Argument)
    (h : a.generic_definition = true) :
    write_onresponse_code a args = ([], a) := by
  rw [write_onresponse_code]; simp [h]

/-- Shape of the emitted `on_send` statements for a scalar argument: the
type-dispatched writer call, wrapped in the presence guard when optional. -/
theorem onsend_scalar (a : Argument) (args : List Argument)
    (hvec : a.is_vector = false) (hind : a.flag_indicator = false)
    (hgd : a.generic_definition = false) :
    write_onsend_code a args =
      ((if a.is_flag then [SendStep.flagGuard [scalarSendOf a.argType]]
        else [scalarSendOf a.argType]), a) := by
  rw [write_onsend_code]
  simp only [hgd, hvec, hind, Bool.false_eq_true, if_false, dite_false]
  cases a.is_flag <;> simp

/-- Shape of the emitted `on_response` statements for a scalar argument: the
type-dispatched reader call, wrapped in the flag-bit guard when optional. -/
theorem onresp_scalar (a : Argument) (args : List Argument)
    (hvec : a.is_vector = false) (hind : a.flag_indicator = false)
    (hgd : a.generic_definition = false) :
    write_onresponse_code a args =
      ((if a.is_flag then
          [ReadStep.flagGuardR a.flag_index [scalarReadOf a.argType]]
        else [scalarReadOf a.argType]), a) := by
  rw [write_onresponse_code]
  simp only [hgd, hvec, hind, Bool.false_eq_true, if_false, dite_false]
  cases a.is_flag <;> simp

/-- A matching scalar value is never `None`. -/
theorem scalarMatches_not_none (t : String) (v : Value)
    (hm : scalarMatches t v = true) : v.isNone = false := by
  rw [scalarMatches] at hm
  revert hm
  split_ifs <;> cases v <;>
    simp [Value.isNone, Value.isInt, Value.isLong, Value.isLarge,
      Value.isDouble, Value.isStr, Value.isBool, Value.isTrueLit,
      Value.isBytes, Value.isObj]

set_option maxHeartbeats 1000000 in
/-- One scalar write statement emits exactly one token, and the matching
read statement maps that token back to the written value. -/
theorem scalar_step_rt (env : String → Value) (t : String) (v : Value)
    (hm : scalarMatches t v = true) (fs : Option Nat) :
    ∃ w, runSendStep env (scalarSendOf t) v = some [w] ∧
      ∀ tail, runRespStep (scalarReadOf t) fs (w :: tail) =
        some (some v, fs, tail) := by
  rw [scalarSendOf, scalarReadOf]
  rw [scalarMatches] at hm
  revert hm
  split_ifs <;> intro hm <;> cases v <;>
    simp_all [runSendStep, runRespStep, Value.isInt, Value.isLong,
      Value.isLarge, Value.isDouble, Value.isStr, Value.isBool,
      Value.isTrueLit, Value.isBytes, Value.isObj]

theorem isNone_iff (v : Value) : v.isNone = true ↔ v = Value.vnone := by
  cases v <;> simp [Value.isNone]

theorem onsend_snd_nonvec (a : Argument) (args : List Argument)
    (hvec : a.is_vector = false) : (write_onsend_code a args).2 = a := by
  rw [write_onsend_code]
  by_cases hgd : a.generic_definition = true <;> cases hf : a.is_flag <;>
    simp [hgd, hvec, hf, apply_ite Prod.snd, ite_self]

theorem onresp_snd_nonvec (a : Argument) (args : List Argument)
    (hvec : a.is_vector = false) : (write_onresponse_code a args).2 = a := by
  rw [write_onresponse_code]
  by_cases hgd : a.generic_definition = true <;> cases hf : a.is_flag <;>
    simp [hgd, hvec, hf, apply_ite Prod.snd, ite_self]

/-- The source's temporary `arg.is_vector` toggle is restored: the argument
object is unchanged after `write_onsend_code` returns. -/
theorem onsend_snd (a : Argument) (args : List Argument) :
    (write_onsend_code a args).2 = a := by
  by_cases hvec : a.is_vector = true
  · rw [write_onsend_code]
    by_cases hgd : a.generic_definition = true
    · simp [hgd]
    · have hs := onsend_snd_nonvec { a with is_vector := false } args rfl
      cases hf : a.is_flag <;> simp [hgd, hvec, hf, hs] <;>
        (cases a; simp_all)
  · exact onsend_snd_nonvec a args (by simpa using hvec)

/-- The argument object is unchanged after `write_onresponse_code` returns. -/
theorem onresp_snd (a : Argument) (args : List Argument) :
    (write_onresponse_code a args).2 = a := by
  by_cases hvec : a.is_vector = true
  · rw [write_onresponse_code]
    by_cases hgd : a.generic_definition = true
    · simp [hgd]
    · have hs := onresp_snd_nonvec { a with is_vector := false } args rfl
      cases hf : a.is_flag <;> simp [hgd, hvec, hf, hs] <;>
        (cases a; simp_all)
  · exact onresp_snd_nonvec a args (by simpa using hvec)

/-- Shape of the emitted `on_send` statements for a flag indicator. -/
theorem onsend_ind (a : Argument) (args : List Argument)
    (hvec : a.is_vector = false) (hind : a.flag_indicator = true)
    (hgd : a.generic_definition = false) (hf : a.is_flag = false) :
    write_onsend_code a args = ([SendStep.writeFlags (flagPairs args)], a) := by
  rw [write_onsend_code]
  simp [hgd, hvec, hind, hf]

/-- Shape of the emitted `on_response` statements for a flag indicator. -/
theorem onresp_ind (a : Argument) (args : List Argument)
    (hvec : a.is_vector = false) (hind : a.flag_indicator = true)
    (hgd : a.generic_definition = false) (hf : a.is_flag = false) :
    write_onresponse_code a args = ([ReadStep.readFlags], a) := by
  rw [write_onresponse_code]
  simp [hgd, hvec, hind, hf]

/-- Shape of the emitted `on_send` statements for a vector argument: vector
framing around the element statements generated with `is_vector` disabled
(the one recursive call of the source), wrapped in the presence guard when
optional. -/
theorem onsend_vec (a : Argument) (args : List Argument)
    (hvec : a.is_vector = true) (hgd : a.generic_definition = false) :
    write_onsend_code a args =
      ((if a.is_flag then
          [SendStep.flagGuard [SendStep.vecFrame
            (write_onsend_code { a with is_vector := false } args).1]]
        else
          [SendStep.vecFrame
            (write_onsend_code { a with is_vector := false } args).1]), a) := by
  rw [write_onsend_code]
  have hs := onsend_snd_nonvec { a with is_vector := false } args rfl
  cases hf : a.is_flag <;> simp [hgd, hvec, hf, hs] <;> (cases a; simp_all)

/-- Shape of the emitted `on_response` statements for a vector argument. -/
theorem onresp_vec (a : Argument) (args : List Argument)
    (hvec : a.is_vector = true) (hgd : a.generic_definition = false) :
    write_onresponse_code a args =
      ((if a.is_flag then
          [ReadStep.flagGuardR a.flag_index [ReadStep.vecRead
            (write_onresponse_code { a with is_vector := false } args).1]]
        else
          [ReadStep.vecRead
            (write_onresponse_code { a with is_vector := false } args).1]), a) := by
  rw [write_onresponse_code]
  have hs := onresp_snd_nonvec { a with is_vector := false } args rfl
  cases hf : a.is_flag <;> simp [hgd, hvec, hf, hs] <;> (cases a; simp_all)

/-- Round trip for one emitted scalar statement group: a non-vector,
non-indicator value argument, possibly flag-gated with a passing read
guard. -/
theorem elem_rt (env : String → Value) (args : List Argument) (a : Argument)
    (hvec : a.is_vector = false) (hind : a.flag_indicator = false)
    (hgd : a.generic_definition = false) (v : Value)
    (hm : scalarMatches a.argType v = true) (fs : Option Nat)
    (hfl : a.is_flag = true →
      ∃ f, fs = some f ∧ (f &&& (1 <<< a.flag_index)) ≠ 0) :
    ∃ out, runSendGroup env (write_onsend_code a args).1 v = some out ∧
      ∀ tail, runRespGroup (write_onresponse_code a args).1 fs (out ++ tail) =
        some (some v, fs, tail) := by
  obtain ⟨w, hw, hr⟩ := scalar_step_rt env a.argType v hm fs
  rw [onsend_scalar a args hvec hind hgd, onresp_scalar a args hvec hind hgd]
  cases hf : a.is_flag with
  | false =>
    refine ⟨[w], ?_, fun tail => ?_⟩
    · simp [runSendGroup, hw]
    · simp [runRespGroup, hr tail]
  | true =>
    obtain ⟨f, rfl, hbit⟩ := hfl hf
    have hnn := scalarMatches_not_none a.argType v hm
    refine ⟨[w], ?_, fun tail => ?_⟩
    · simp [runSendGroup, runSendStep, hnn, hw]
    · simp [runRespGroup, runRespStep, hbit, hr tail]

/-- The emitted vector loops round-trip: if each element's statement group
round-trips at the current flags, then writing all elements and reading
`l.length` of them back yields the same list, order preserved. -/
theorem loop_rt (env : String → Value) (gs : List SendStep) (gr : List ReadStep)
    (fs : Option Nat) (l : List Value)
    (h : ∀ x ∈ l, ∃ out, runSendGroup env gs x = some out ∧
      ∀ tail, runRespGroup gr fs (out ++ tail) = some (some x, fs, tail)) :
    ∃ out, runSendLoop (fun x => runSendGroup env gs x) l = some out ∧
      ∀ tail,
        runRespLoop (fun f s => runRespGroup gr f s) l.length fs (out ++ tail) =
          some (l, fs, tail) := by
  induction l with
  | nil => exact ⟨[], rfl, fun tail => rfl⟩
  | cons x xs ih =>
    obtain ⟨outx, hx, hrx⟩ := h x (List.mem_cons_self x xs)
    obtain ⟨outs, hs, hrs⟩ := ih (fun y hy => h y (List.mem_cons_of_mem x hy))
    refine ⟨outx ++ outs, ?_, fun tail => ?_⟩
    · simp [runSendLoop, hx, hs]
    · have hassoc : outx ++ outs ++ tail = outx ++ (outs ++ tail) := by
        simp [List.append_assoc]
      rw [List.length_cons, hassoc, runRespLoop, hrx (outs ++ tail)]
      simp [hrs tail]

theorem argMatches_vector (a : Argument) (v : Value)
    (hvec : a.is_vector = true) (h : argMatches a v = true) :
    ∃ l, v = Value.vlist l ∧ l.all (scalarMatches a.argType) = true := by
  rw [argMatches, hvec] at h
  simp only [if_true, Bool.and_eq_true] at h
  cases v <;> simp_all [Value.isList, Value.listOf]

theorem argMatches_not_none (a : Argument) (v : Value)
    (h : argMatches a v = true) : v.isNone = false := by
  rw [argMatches] at h
  by_cases hvec : a.is_vector = true
  · rw [hvec] at h
    simp only [if_true, Bool.and_eq_true] at h
    cases v <;> simp_all [Value.isList, Value.isNone]
  · simp only [hvec, if_false] at h
    exact scalarMatches_not_none a.argType v (by simpa using h)

/-- Round trip for one emitted vector statement group. -/
theorem vec_rt (env : String → Value) (args : List Argument) (a : Argument)
    (hvec : a.is_vector = true) (hind : a.flag_indicator = false)
    (hgd : a.generic_definition = false) (l : List Value)
    (hm : l.all (scalarMatches a.argType) = true) (fs : Option Nat)
    (hfl : a.is_flag = true →
      ∃ f, fs = some f ∧ (f &&& (1 <<< a.flag_index)) ≠ 0) :
    ∃ ws,
      runSendGroup env (write_onsend_code a args).1 (Value.vlist l) =
        some (WireItem.wInt 0x1cb5c415 ::
          WireItem.wInt (l.length : Int) :: ws) ∧
      ∀ tail, runRespGroup (write_onresponse_code a args).1 fs
          (WireItem.wInt 0x1cb5c415 ::
            WireItem.wInt (l.length : Int) :: (ws ++ tail)) =
        some (some (Value.vlist l), fs, tail) := by
  have helem : ∀ x ∈ l,
      ∃ out, runSendGroup env
          (write_onsend_code { a with is_vector := false } args).1 x = some out ∧
        ∀ tail,
          runRespGroup (write_onresponse_code { a with is_vector := false } args).1
            fs (out ++ tail) = some (some x, fs, tail) := by
    intro x hx
    exact elem_rt env args { a with is_vector := false } rfl hind hgd x
      (by have := List.all_eq_true.mp hm x hx; simpa using this) fs hfl
  obtain ⟨ws, hws, hrs⟩ :=
    loop_rt env (write_onsend_code { a with is_vector := false } args).1
      (write_onresponse_code { a with is_vector := false } args).1 fs l helem
  rw [onsend_vec a args hvec hgd, onresp_vec a args hvec hgd]
  have hsend : runSendStep env
      (SendStep.vecFrame (write_onsend_code { a with is_vector := false } args).1)
      (Value.vlist l) =
      some (WireItem.wInt 0x1cb5c415 ::
        WireItem.wInt (l.length : Int) :: ws) := by
    simp [runSendStep, hws]
  have hread : ∀ tail, runRespStep
      (ReadStep.vecRead (write_onresponse_code { a with is_vector := false } args).1)
      fs (WireItem.wInt 0x1cb5c415 ::
        WireItem.wInt (l.length : Int) :: (ws ++ tail)) =
      some (some (Value.vlist l), fs, tail) := by
    intro tail
    rw [runRespStep]
    simp [hrs tail]
  cases hf : a.is_flag with
  | false =>
    rw [hf] at hsend hread hws hrs
    refine ⟨ws, ?_, fun tail => ?_⟩
    · simp [runSendGroup, hsend]
    · simp [runRespGroup, hread tail]
  | true =>
    rw [hf] at hsend hread hws hrs
    obtain ⟨f, rfl, hbit⟩ := hfl hf
    refine ⟨ws, ?_, fun tail => ?_⟩
    · simp [runSendGroup, runSendStep, Value.isNone, hsend, hws]
    · simp [runRespGroup, runRespStep, hbit, hread tail, hrs tail]

/-- The value the emitted read statements assign to an argument's field
(`none`: the field is left untouched — generated code emitted nothing, or the
presence bit was clear). -/
def respAssign (a : Argument) (v : Value) : Option Value :=
  if a.generic_definition then none
  else if a.flag_indicator then none
  else if a.is_flag && v.isNone then none
  else some v

/-- The read-side `flags` local after one argument's statements ran. -/
def respFlagsAfter (a : Argument) (env : String → Value) (args : List Argument)
    (fs : Option Nat) : Option Nat :=
  if a.generic_definition then fs
  else if a.flag_indicator then some (computeFlags env (flagPairs args))
  else fs

/-- Round trip for the full statement group of one argument, whatever its
shape: what `write_onsend_code` emits for it is consumed exactly by what
`write_onresponse_code` emits for it, assigning back the original value
(or skipping an absent optional one). -/
theorem arg_rt (env : String → Value) (args : List Argument) (a : Argument)
    (hsh : argShapeOk a = true) (hmem : a ∈ args)
    (hnd : ((args.filter (fun b => b.is_flag)).map (fun b => b.flag_index)).Nodup)
    (hv : a.flag_indicator = false → a.generic_definition = false →
      argValueOk a (env a.name) = true)
    (fs : Option Nat)
    (hfl : a.is_flag = true → fs = some (computeFlags env (flagPairs args))) :
    ∃ out,
      runSendGroup env (write_onsend_code a args).1 (env a.name) = some out ∧
      ∀ tail, runRespGroup (write_onresponse_code a args).1 fs (out ++ tail) =
        some (respAssign a (env a.name), respFlagsAfter a env args fs, tail) := by
  by_cases hgd : a.generic_definition = true
  · rw [onsend_gd a args hgd, onresp_gd a args hgd]
    exact ⟨[], rfl, fun tail => by
      simp [runRespGroup, respAssign, respFlagsAfter, hgd]⟩
  · replace hgd : a.generic_definition = false := by simpa using hgd
    by_cases hind : a.flag_indicator = true
    · have hparts : a.is_flag = false ∧ a.is_vector = false ∧
          a.generic_definition = false := by
        rw [argShapeOk, hind] at hsh
        cases hb1 : a.is_flag <;> cases hb2 : a.is_vector <;>
          cases hb3 : a.generic_definition <;> simp_all
      obtain ⟨hflg, hvec, _⟩ := hparts
      rw [onsend_ind a args hvec hind hgd hflg, onresp_ind a args hvec hind hgd hflg]
      refine ⟨[WireItem.wInt (Int.ofNat (computeFlags env (flagPairs args)))],
        ?_, fun tail => ?_⟩
      · simp [runSendGroup, runSendStep]
      · simp [runRespGroup, runRespStep, respAssign, respFlagsAfter, hind, hgd]
    · replace hind : a.flag_indicator = false := by simpa using hind
      have hvOk := hv hind hgd
      by_cases hpres : (env a.name).isNone = true
      · -- the value is None: only an optional argument admits this
        have hf : a.is_flag = true := by
          by_contra hff
          replace hff : a.is_flag = false := by simpa using hff
          rw [argValueOk, hff] at hvOk
          simp only [Bool.false_eq_true, if_false] at hvOk
          rw [argMatches_not_none a _ hvOk] at hpres
          exact Bool.false_ne_true hpres
        have hfs := hfl hf
        have hbit0 : (computeFlags env (flagPairs args)).testBit a.flag_index
            = false := by
          rw [computeFlags_testBit_flag args env a hmem hf hnd, hpres]
          rfl
        have hguard : ¬((computeFlags env (flagPairs args) &&&
            (1 <<< a.flag_index)) ≠ 0) := by
          intro hcon
          rw [land_one_shift_ne] at hcon
          rw [hbit0] at hcon
          exact Bool.false_ne_true hcon
        have hveq := (isNone_iff _).mp hpres
        by_cases hvec : a.is_vector = true
        · rw [onsend_vec a args hvec hgd, onresp_vec a args hvec hgd, hf]
          refine ⟨[], ?_, fun tail => ?_⟩
          · simp [runSendGroup, runSendStep, hveq, Value.isNone]
          · rw [hfs]
            simp [runRespGroup, runRespStep, hguard, respAssign,
              respFlagsAfter, hgd, hind, hf, hpres]
        · replace hvec : a.is_vector = false := by simpa using hvec
          rw [onsend_scalar a args hvec hind hgd,
            onresp_scalar a args hvec hind hgd, hf]
          refine ⟨[], ?_, fun tail => ?_⟩
          · simp [runSendGroup, runSendStep, hveq, Value.isNone]
          · rw [hfs]
            simp [runRespGroup, runRespStep, hguard, respAssign,
              respFlagsAfter, hgd, hind, hf, hpres]
      · -- the value is present
        replace hpres : (env a.name).isNone = false := by simpa using hpres
        have hmatch : argMatches a (env a.name) = true := by
          rw [argValueOk] at hvOk
          cases hf : a.is_flag <;> rw [hf] at hvOk <;>
            simpa [hpres] using hvOk
        have hasn : respAssign a (env a.name) = some (env a.name) := by
          simp [respAssign, hgd, hind, hpres]
        have hfsa : respFlagsAfter a env args fs = fs := by
          simp [respFlagsAfter, hgd, hind]
        have hfl' : a.is_flag = true →
            ∃ f, fs = some f ∧ (f &&& (1 <<< a.flag_index)) ≠ 0 := by
          intro hf
          refine ⟨computeFlags env (flagPairs args), hfl hf, ?_⟩
          rw [land_one_shift_ne,
            computeFlags_testBit_flag args env a hmem hf hnd, hpres]
          rfl
        rw [hasn, hfsa]
        by_cases hvec : a.is_vector = true
        · obtain ⟨l, hveq, hall⟩ := argMatches_vector a _ hvec hmatch
          rw [hveq]
          obtain ⟨ws, h1, h2⟩ := vec_rt env args a hvec hind hgd l hall fs hfl'
          refine ⟨WireItem.wInt 0x1cb5c415 ::
            WireItem.wInt (l.length : Int) :: ws, h1, fun tail => ?_⟩
          rw [List.cons_append, List.cons_append]
          exact h2 tail
        · replace hvec : a.is_vector = false := by simpa using hvec
          rw [argMatches, hvec] at hmatch
          simp only [Bool.false_eq_true, if_false] at hmatch
          exact elem_rt env args a hvec hind hgd _ hmatch fs hfl'

/-- Sequential round trip over a suffix of the argument list: the emitted
read statements of the remaining arguments, run in order against what the
emitted write statements produced, consume exactly that output and restore
every value-carrying field (fields of untouched names keep their prior
state). -/
theorem args_rt (env : String → Value) (args : List Argument)
    (hnd : ((args.filter (fun b => b.is_flag)).map (fun b => b.flag_index)).Nodup)
    (hshAll : ∀ b ∈ args, argShapeOk b = true) :
    ∀ rest : List Argument, (∀ b ∈ rest, b ∈ args) →
      (rest.map (fun b => b.name)).Nodup →
      (∀ b ∈ rest, b.flag_indicator = false → b.generic_definition = false →
        argValueOk b (env b.name) = true) →
      ∀ fs : Option Nat, indicatorFirst fs.isSome rest = true →
        (fs = none ∨ fs = some (computeFlags env (flagPairs args))) →
        ∀ envAcc : String → Value,
          (∀ b ∈ rest, b.flag_indicator = false → b.generic_definition = false →
            envAcc b.name = Value.vnone) →
          ∃ ws, runSendArgList env args rest = some ws ∧
            ∀ tail, ∃ env1 fs1,
              runRespArgList envAcc
                (rest.map (fun b => (b.name, (write_onresponse_code b args).1)))
                fs (ws ++ tail) = some (env1, fs1, tail) ∧
              (∀ b ∈ rest, b.flag_indicator = false →
                b.generic_definition = false → env1 b.name = env b.name) ∧
              (∀ x, x ∉ rest.map (fun b => b.name) → env1 x = envAcc x) := by
  intro rest
  induction rest with
  | nil =>
    intro _ _ _ fs _ _ envAcc _
    exact ⟨[], rfl, fun tail =>
      ⟨envAcc, fs, rfl, by simp, fun x _ => rfl⟩⟩
  | cons a rest ih =>
    intro hmem hnodup hadm fs hord hdisj envAcc hacc
    have hmem_a : a ∈ args := hmem a (List.mem_cons_self a rest)
    have hsh_a : argShapeOk a = true := hshAll a hmem_a
    rw [indicatorFirst] at hord
    rw [Bool.and_eq_true] at hord
    obtain ⟨hord1, hord2⟩ := hord
    have hfl : a.is_flag = true →
        fs = some (computeFlags env (flagPairs args)) := by
      intro hf
      rw [hf] at hord1
      simp only [Bool.not_true, Bool.false_or] at hord1
      cases hdisj with
      | inl h => rw [h] at hord1; simp at hord1
      | inr h => exact h
    obtain ⟨out, hsend_a, hresp_a⟩ :=
      arg_rt env args a hsh_a hmem_a hnd
        (fun hi hg => hadm a (List.mem_cons_self a rest) hi hg) fs hfl
    have hisSome : (respFlagsAfter a env args fs).isSome
        = (fs.isSome || a.flag_indicator) := by
      have hs := hsh_a
      rw [argShapeOk] at hs
      rw [respFlagsAfter]
      cases hg : a.generic_definition <;> cases hi : a.flag_indicator
      · simp
      · simp
      · simp
      · rw [hg, hi] at hs
        simp at hs
    have hdisj1 : respFlagsAfter a env args fs = none ∨
        respFlagsAfter a env args fs =
          some (computeFlags env (flagPairs args)) := by
      rw [respFlagsAfter]
      split_ifs with h1 h2
      · exact hdisj
      · exact Or.inr rfl
      · exact hdisj
    have hord2' :
        indicatorFirst (respFlagsAfter a env args fs).isSome rest = true := by
      rw [hisSome]
      exact hord2
    have haname : a.name ∉ rest.map (fun b => b.name) := by
      rw [List.map_cons] at hnodup
      exact (List.nodup_cons.mp hnodup).1
    have hbname : ∀ b ∈ rest, b.name ≠ a.name := by
      intro b hb hbeq
      exact haname (hbeq ▸ List.mem_map_of_mem (fun c => c.name) hb)
    have hacc1 : ∀ b ∈ rest, b.flag_indicator = false →
        b.generic_definition = false →
        (match respAssign a (env a.name) with
         | some v => setVar envAcc a.name v
         | none => envAcc) b.name = Value.vnone := by
      intro b hb hbi hbg
      cases hassign : respAssign a (env a.name) with
      | none => exact hacc b (List.mem_cons_of_mem a hb) hbi hbg
      | some v =>
        show setVar envAcc a.name v b.name = Value.vnone
        rw [setVar, if_neg (hbname b hb)]
        exact hacc b (List.mem_cons_of_mem a hb) hbi hbg
    obtain ⟨ws', hsend', hrespIH⟩ :=
      ih (fun b hb => hmem b (List.mem_cons_of_mem a hb))
        ((List.nodup_cons.mp (by rwa [List.map_cons] at hnodup)).2)
        (fun b hb => hadm b (List.mem_cons_of_mem a hb))
        (respFlagsAfter a env args fs) hord2' hdisj1
        (match respAssign a (env a.name) with
         | some v => setVar envAcc a.name v
         | none => envAcc) hacc1
    refine ⟨out ++ ws', ?_, fun tail => ?_⟩
    · rw [runSendArgList, hsend_a, hsend']
    · obtain ⟨env1, fs1, hrun', henv', hframe'⟩ := hrespIH tail
      refine ⟨env1, fs1, ?_, ?_, ?_⟩
      · have hassoc : out ++ ws' ++ tail = out ++ (ws' ++ tail) := by simp
        rw [List.map_cons, runRespArgList, hassoc, hresp_a (ws' ++ tail)]
        exact hrun'
      · intro b hb hbi hbg
        rcases List.mem_cons.mp hb with hba | hbrest
        · subst hba
          have hfr := hframe' b.name haname
          rw [hfr]
          cases hpres : (env b.name).isNone with
          | false =>
            have hassign : respAssign b (env b.name) = some (env b.name) := by
              rw [respAssign, hbg, hbi]
              simp [hpres]
            rw [hassign]
            show setVar envAcc b.name (env b.name) b.name = env b.name
            rw [setVar, if_pos rfl]
          | true =>
            have hveq := (isNone_iff _).mp hpres
            cases hbf : b.is_flag with
            | false =>
              have hassign : respAssign b (env b.name) = some (env b.name) := by
                rw [respAssign, hbg, hbi]
                simp [hbf]
              rw [hassign]
              show setVar envAcc b.name (env b.name) b.name = env b.name
              rw [setVar, if_pos rfl]
            | true =>
              have hassign : respAssign b (env b.name) = none := by
                rw [respAssign, hbg, hbi]
                simp [hbf, hpres]
              rw [hassign]
              show envAcc b.name = env b.name
              rw [hacc b (List.mem_cons_self b rest) hbi hbg, hveq]
        · exact henv' b hbrest hbi hbg
      · intro x hx
        rw [List.map_cons, List.mem_cons] at hx
        push_neg at hx
        rw [hframe' x hx.2]
        cases hassign : respAssign a (env a.name) with
        | none => rfl
        | some v =>
          show setVar envAcc a.name v x = envAcc x
          rw [setVar, if_neg hx.1]

/-! ## Claim theorems -/

/-- C1.  For every Definition and every admissible assignment of its
arguments (including every combination of present and absent flag-gated
fields), decoding the byte stream produced by the generated write routine —
the step sequence emitted by `write_onsend_code` for each argument in
declaration order — through the step sequence emitted by
`write_onresponse_code` reproduces the original value field-for-field:
every value-carrying field of the freshly constructed object ends up equal
to the field that was written, and the stream is consumed exactly. -/
theorem claim_round_trip (t : TLObject) (env : String → Value)
    (hwf : wfArgs t.args) (hadm : envAdmissible t.args env) :
    ∃ ws, runSendArgList env t.args t.args = some ws ∧
      ∃ env1 fs1,
        runRespArgList (fun _ => Value.vnone)
          (t.args.map (fun b => (b.name, (write_onresponse_code b t.args).1)))
          none ws = some (env1, fs1, []) ∧
        ∀ a ∈ t.args, a.flag_indicator = false → a.generic_definition = false →
          env1 a.name = env a.name := by
  obtain ⟨hnames, hidx, hshape, hindfirst⟩ := hwf
  obtain ⟨ws, hsend, hresp⟩ :=
    args_rt env t.args hidx (fun b hb => List.all_eq_true.mp hshape b hb)
      t.args (fun b hb => hb) hnames hadm none hindfirst (Or.inl rfl)
      (fun _ => Value.vnone) (fun _ _ _ _ => rfl)
  obtain ⟨env1, fs1, hrun, henv, _⟩ := hresp []
  rw [List.append_nil] at hrun
  exact ⟨ws, hsend, env1, fs1, hrun, henv⟩

/-- C1 witness: the spec's concrete scenario
`example#1a2b3c4d flags:# n:flags.0?int = Example;` with `n = 5`. -/
theorem claim_round_trip_witness :
    wfArgs [⟨"flags", "#", false, false, 0, true, false, false⟩,
      ⟨"n", "int", false, true, 0, false, false, false⟩] ∧
    envAdmissible
      [⟨"flags", "#", false, false, 0, true, false, false⟩,
        ⟨"n", "int", false, true, 0, false, false, false⟩]
      (fun x => if x = "n" then Value.vint 5 else Value.vnone) ∧
    (∃ ws,
      runSendArgList (fun x => if x = "n" then Value.vint 5 else Value.vnone)
        [⟨"flags", "#", false, false, 0, true, false, false⟩,
          ⟨"n", "int", false, true, 0, false, false, false⟩]
        [⟨"flags", "#", false, false, 0, true, false, false⟩,
          ⟨"n", "int", false, true, 0, false, false, false⟩] = some ws ∧
      ∃ env1 fs1,
        runRespArgList (fun _ => Value.vnone)
          ([⟨"flags", "#", false, false, 0, true, false, false⟩,
            ⟨"n", "int", false, true, 0, false, false, false⟩].map
            (fun b => (b.name, (write_onresponse_code b
              [⟨"flags", "#", false, false, 0, true, false, false⟩,
                ⟨"n", "int", false, true, 0, false, false, false⟩]).1)))
          none ws = some (env1, fs1, []) ∧
        ∀ a ∈ [(⟨"flags", "#", false, false, 0, true, false, false⟩ : Argument),
            ⟨"n", "int", false, true, 0, false, false, false⟩],
          a.flag_indicator = false → a.generic_definition = false →
            env1 a.name =
              (fun x => if x = "n" then Value.vint 5 else Value.vnone) a.name) :=
  ⟨by unfold wfArgs; decide, by unfold envAdmissible; decide,
    claim_round_trip
      ⟨"example", none, 0x1a2b3c4d, false,
        [⟨"flags", "#", false, false, 0, true, false, false⟩,
          ⟨"n", "int", false, true, 0, false, false, false⟩]⟩
      (fun x => if x = "n" then Value.vint 5 else Value.vnone)
      (by unfold wfArgs; decide) (by unfold envAdmissible; decide)⟩

/-- C2.  Every generated `on_send` emits the Definition's own constructor id
as its very first step, not gated by anything (the head of the step list is
the plain `writer.write_int(id)` statement, and every successful run's
output starts with that id token).  The generated `on_response` never
re-reads that id: a function Definition's read routine is exactly the
registry-dispatch statement `self.result = reader.tgread_object()` (read the
inner constructor id, look the type up, decode into the result slot), while
a non-function Definition's read routine reads its arguments directly. -/
theorem claim_constructor_id_and_dispatch (t : TLObject) :
    onSendSteps t = SendStep.writeConst t.id ::
      t.args.flatMap (fun a => (write_onsend_code a t.args).1) ∧
    (∀ env ws, runSend t env = some ws →
      ∃ body, ws = WireItem.wInt t.id :: body) ∧
    (t.is_function = true → onResponseBody t = RespBody.resultFromRegistry ∧
      ∀ env o rest, runResponse t env (WireItem.wObj o :: rest) =
        some (setVar env "result" (Value.vobj o), rest)) ∧
    (t.is_function = false → onResponseBody t = RespBody.argSteps
      (t.args.map (fun a => (a.name, (write_onresponse_code a t.args).1)))) := by
  refine ⟨rfl, ?_, ?_, ?_⟩
  · intro env ws hws
    rw [runSend] at hws
    cases hrun : runSendArgList env t.args t.args with
    | none => rw [hrun] at hws; exact absurd hws (by simp)
    | some body =>
      rw [hrun] at hws
      exact ⟨body, by injection hws with h; exact h.symm⟩
  · intro hfn
    have hbody : onResponseBody t = RespBody.resultFromRegistry := by
      rw [onResponseBody, hfn]
      simp
    refine ⟨hbody, fun env o rest => ?_⟩
    simp [runResponse, hbody]
  · intro hfn
    rw [onResponseBody, hfn]
    simp

/-- C2 witness: a function Definition dispatches through the registry. -/
theorem claim_constructor_id_and_dispatch_witness :
    onResponseBody ⟨"req", none, 9, true, []⟩ = RespBody.resultFromRegistry ∧
    onSendSteps ⟨"req", none, 9, true, []⟩ = [SendStep.writeConst 9] :=
  ⟨((claim_constructor_id_and_dispatch ⟨"req", none, 9, true, []⟩).2.2.1
      rfl).1,
    (claim_constructor_id_and_dispatch ⟨"req", none, 9, true, []⟩).1⟩

/-- C10.  A non-function Definition with an empty argument list: the
generated `on_response` body is `pass` (no steps, consuming nothing from the
reader), and `on_send` emits exactly the 32-bit constructor id and nothing
else. -/
theorem claim_empty_args (t : TLObject) (hfn : t.is_function = false)
    (hargs : t.args = []) :
    onSendSteps t = [SendStep.writeConst t.id] ∧
    (∀ env, runSend t env = some [WireItem.wInt t.id]) ∧
    onResponseBody t = RespBody.argSteps [] ∧
    (∀ env stream, runResponse t env stream = some (env, stream)) := by
  have hbody : onResponseBody t = RespBody.argSteps [] := by
    rw [onResponseBody, hfn, hargs]
    simp
  refine ⟨?_, ?_, hbody, ?_⟩
  · rw [onSendSteps, hargs]
    rfl
  · intro env
    rw [runSend, hargs]
    rfl
  · intro env stream
    simp [runResponse, hbody, runRespArgList]

/-- C10 witness. -/
theorem claim_empty_args_witness :
    onSendSteps ⟨"nothing", none, 42, false, []⟩ = [SendStep.writeConst 42] ∧
    runResponse ⟨"nothing", none, 42, false, []⟩ (fun _ => Value.vnone)
      [WireItem.wInt 1] =
      some ((fun _ => Value.vnone), [WireItem.wInt 1]) :=
  ⟨(claim_empty_args ⟨"nothing", none, 42, false, []⟩ rfl rfl).1,
    (claim_empty_args ⟨"nothing", none, 42, false, []⟩ rfl rfl).2.2.2
      (fun _ => Value.vnone) [WireItem.wInt 1]⟩

/-- C5 (code-bug evidence).  The registry builder performs no duplicate
constructor-id check: with two Definitions sharing id `5`, the whole batch
still succeeds and `all_tlobjects.py` is emitted with one dictionary entry
per Definition — duplicate keys included — in declaration order (at Python
load time the later entry silently shadows the earlier one).  The spec
(§4.3, §8) instead mandates that the whole batch fail with no registry
artifact. -/
theorem registry_emits_despite_duplicate_ids :
    all_tlobjects_entries
      [⟨"alpha", none, 5, false, []⟩, ⟨"beta", none, 5, false, []⟩] =
      [(5, ⟨"alpha", none, 5, false, []⟩),
        (5, ⟨"beta", none, 5, false, []⟩)] ∧
    (∀ ts : List TLObject,
      all_tlobjects_entries ts = ts.map (fun t => (t.id, t)) ∧
      (all_tlobjects_entries ts).length = ts.length) :=
  ⟨rfl, fun ts => ⟨rfl, by rw [all_tlobjects_entries, List.length_map]⟩⟩

/-- C6 (code-bug evidence).  The generator performs no generation-time
validation at all: a Definition with a flag index outside `[0,31]` (here
`32`), a custom type name that resolves to nothing (`NoSuchType` falls
through to delegation), or a flag-gated argument with no preceding flag
indicator, still gets a complete encode/decode artifact emitted, with no
error reported.  The spec (§4.2, §7) instead mandates that no artifact be
emitted for such a Definition. -/
theorem generator_emits_artifact_despite_bad_definition :
    onSendSteps ⟨"bad", none, 7, false,
      [⟨"flags", "#", false, false, 0, true, false, false⟩,
        ⟨"y", "int", false, true, 32, false, false, false⟩,
        ⟨"z", "NoSuchType", false, false, 0, false, false, false⟩]⟩ =
      [SendStep.writeConst 7, SendStep.writeFlags [(32, "y")],
        SendStep.flagGuard [SendStep.writeIntV], SendStep.writeObjV] ∧
    onResponseBody ⟨"bad", none, 7, false,
      [⟨"flags", "#", false, false, 0, true, false, false⟩,
        ⟨"y", "int", false, true, 32, false, false, false⟩,
        ⟨"z", "NoSuchType", false, false, 0, false, false, false⟩]⟩ =
      RespBody.argSteps [("flags", [ReadStep.readFlags]),
        ("y", [ReadStep.flagGuardR 32 [ReadStep.readIntV]]),
        ("z", [ReadStep.readObjV])] ∧
    onSendSteps ⟨"orphan", none, 8, false,
      [⟨"y", "int", false, true, 0, false, false, false⟩]⟩ =
      [SendStep.writeConst 8, SendStep.flagGuard [SendStep.writeIntV]] := by
  refine ⟨?_, ?_, ?_⟩ <;>
    simp [onSendSteps, onResponseBody, write_onsend_code,
      write_onresponse_code, flagPairs, scalarSendOf, scalarReadOf]

/-- An optional (`is_flag`) argument is, by the parser's shape facts, neither
a flag indicator nor a generic definition. -/
theorem flag_shape (b : Argument) (hsh : argShapeOk b = true)
    (hf : b.is_flag = true) :
    b.flag_indicator = false ∧ b.generic_definition = false := by
  rw [argShapeOk, hf] at hsh
  cases hi : b.flag_indicator <;> cases hg : b.generic_definition <;>
    rw [hi, hg] at hsh <;> simp_all

/-- The emitted read statements for an optional argument are its inner read
statements under the `(flags & (1 << flagIndex)) != 0` guard. -/
theorem onresp_flag_guard (b : Argument) (args : List Argument)
    (hf : b.is_flag = true) (hind : b.flag_indicator = false)
    (hgd : b.generic_definition = false) :
    ∃ inner, write_onresponse_code b args =
      ([ReadStep.flagGuardR b.flag_index inner], b) := by
  by_cases hvec : b.is_vector = true
  · rw [onresp_vec b args hvec hgd, hf]
    refine ⟨[ReadStep.vecRead
      (write_onresponse_code { b with is_vector := false } args).1], ?_⟩
    simp [hf]
  · replace hvec : b.is_vector = false := by simpa using hvec
    rw [onresp_scalar b args hvec hind hgd, hf]
    refine ⟨[scalarReadOf b.argType], ?_⟩
    simp

/-- C3.  For a Definition with a flag indicator: the indicator's write step
computes the bitmask over exactly the flag-gated arguments
(`flags |= (1 << flagIndex)` for every one whose value is present) and emits
it as one 32-bit integer; its read step reads the 32-bit bitmask; each
flag-gated argument's read statements sit under the guard that bit
`flagIndex` of that bitmask is set (bit `flagIndex` of the computed mask is
set exactly when the field is present); and round-tripping preserves the
present/absent status of every optional field — the universally quantified
`env` covers all `2^k` presence combinations. -/
theorem claim_flag_bitmask (t : TLObject) (env : String → Value) (a : Argument)
    (hwf : wfArgs t.args) (hadm : envAdmissible t.args env)
    (hmem : a ∈ t.args) (hind : a.flag_indicator = true) :
    write_onsend_code a t.args = ([SendStep.writeFlags (flagPairs t.args)], a) ∧
    write_onresponse_code a t.args = ([ReadStep.readFlags], a) ∧
    flagPairs t.args = (t.args.filter (fun b => b.is_flag)).map
      (fun b => (b.flag_index, b.name)) ∧
    (∀ v, runSendGroup env (write_onsend_code a t.args).1 v =
      some [WireItem.wInt (Int.ofNat (computeFlags env (flagPairs t.args)))]) ∧
    (∀ b ∈ t.args, b.is_flag = true →
      (computeFlags env (flagPairs t.args)).testBit b.flag_index =
        !(env b.name).isNone) ∧
    (∀ b ∈ t.args, b.is_flag = true →
      ∃ inner, write_onresponse_code b t.args =
        ([ReadStep.flagGuardR b.flag_index inner], b)) ∧
    (∃ ws env1 fs1, runSendArgList env t.args t.args = some ws ∧
      runRespArgList (fun _ => Value.vnone)
        (t.args.map (fun b => (b.name, (write_onresponse_code b t.args).1)))
        none ws = some (env1, fs1, []) ∧
      ∀ b ∈ t.args, b.is_flag = true →
        ((env1 b.name = Value.vnone) ↔ (env b.name = Value.vnone))) := by
  obtain ⟨hnames, hidx, hshape, hindfirst⟩ := hwf
  have hshAll : ∀ b ∈ t.args, argShapeOk b = true :=
    fun b hb => List.all_eq_true.mp hshape b hb
  have hparts : a.is_flag = false ∧ a.is_vector = false ∧
      a.generic_definition = false := by
    have hsh := hshAll a hmem
    rw [argShapeOk, hind] at hsh
    cases hb1 : a.is_flag <;> cases hb2 : a.is_vector <;>
      cases hb3 : a.generic_definition <;> rw [hb1, hb2, hb3] at hsh <;>
        simp_all
  obtain ⟨hf, hvec, hgd⟩ := hparts
  have hsendshape := onsend_ind a t.args hvec hind hgd hf
  refine ⟨hsendshape, onresp_ind a t.args hvec hind hgd hf, rfl, ?_, ?_, ?_, ?_⟩
  · intro v
    rw [hsendshape]
    simp [runSendGroup, runSendStep]
  · intro b hb hbf
    exact computeFlags_testBit_flag t.args env b hb hbf hidx
  · intro b hb hbf
    obtain ⟨hbind, hbgd⟩ := flag_shape b (hshAll b hb) hbf
    exact onresp_flag_guard b t.args hbf hbind hbgd
  · obtain ⟨ws, hsend, hresp⟩ :=
      args_rt env t.args hidx hshAll t.args (fun b hb => hb) hnames hadm
        none hindfirst (Or.inl rfl) (fun _ => Value.vnone) (fun _ _ _ _ => rfl)
    obtain ⟨env1, fs1, hrun, henv, _⟩ := hresp []
    rw [List.append_nil] at hrun
    refine ⟨ws, env1, fs1, hsend, hrun, fun b hb hbf => ?_⟩
    obtain ⟨hbind, hbgd⟩ := flag_shape b (hshAll b hb) hbf
    rw [henv b hb hbind hbgd]

/-- C3 witness: the spec's `example#1a2b3c4d flags:# n:flags.0?int` with
`n` present. -/
theorem claim_flag_bitmask_witness :
    wfArgs [⟨"flags", "#", false, false, 0, true, false, false⟩,
      ⟨"n", "int", false, true, 0, false, false, false⟩] ∧
    write_onsend_code ⟨"flags", "#", false, false, 0, true, false, false⟩
      [⟨"flags", "#", false, false, 0, true, false, false⟩,
        ⟨"n", "int", false, true, 0, false, false, false⟩] =
      ([SendStep.writeFlags
        (flagPairs [⟨"flags", "#", false, false, 0, true, false, false⟩,
          ⟨"n", "int", false, true, 0, false, false, false⟩])],
        ⟨"flags", "#", false, false, 0, true, false, false⟩) :=
  ⟨by unfold wfArgs; decide,
    (claim_flag_bitmask
      ⟨"example", none, 0x1a2b3c4d, false,
        [⟨"flags", "#", false, false, 0, true, false, false⟩,
          ⟨"n", "int", false, true, 0, false, false, false⟩]⟩
      (fun x => if x = "n" then Value.vint 5 else Value.vnone)
      ⟨"flags", "#", false, false, 0, true, false, false⟩
      (by unfold wfArgs; decide) (by unfold envAdmissible; decide)
      (by decide) rfl).1⟩

/-- C4.  A vector argument's write statements emit the fixed vector sentinel
`0x1cb5c415`, then the element count, then the element's encoding once per
element in order; its read statements read (and discard) the marker, read
the count, then read exactly that many elements via the element's decoding
statements, collecting them in order — so a sequence of any length `n`
(0, 1, or many) round-trips with identical, order-preserved elements. -/
theorem claim_vector_framing (env : String → Value) (args : List Argument)
    (a : Argument) (hvec : a.is_vector = true) (hind : a.flag_indicator = false)
    (hgd : a.generic_definition = false) (hf : a.is_flag = false)
    (l : List Value) (hm : l.all (scalarMatches a.argType) = true)
    (fs : Option Nat) :
    write_onsend_code a args = ([SendStep.vecFrame
      (write_onsend_code { a with is_vector := false } args).1], a) ∧
    write_onresponse_code a args = ([ReadStep.vecRead
      (write_onresponse_code { a with is_vector := false } args).1], a) ∧
    (∃ ws, runSendGroup env (write_onsend_code a args).1 (Value.vlist l) =
        some (WireItem.wInt 0x1cb5c415 ::
          WireItem.wInt (l.length : Int) :: ws) ∧
      ∀ tail, runRespGroup (write_onresponse_code a args).1 fs
          (WireItem.wInt 0x1cb5c415 ::
            WireItem.wInt (l.length : Int) :: (ws ++ tail)) =
        some (some (Value.vlist l), fs, tail)) := by
  refine ⟨?_, ?_, ?_⟩
  · rw [onsend_vec a args hvec hgd, hf]
    simp
  · rw [onresp_vec a args hvec hgd, hf]
    simp
  · exact vec_rt env args a hvec hind hgd l hm fs
      (fun h => absurd h (by simp [hf]))

/-- C4 witness: the spec's `vec#aabbccdd items:Vector<int>` with
`items = [1, 2, 3]`. -/
theorem claim_vector_framing_witness :
    ([Value.vint 1, Value.vint 2, Value.vint 3].all
      (scalarMatches "int") = true) ∧
    (∃ ws, runSendGroup (fun _ => Value.vnone)
        (write_onsend_code ⟨"items", "int", true, false, 0, false, false, false⟩
          [⟨"items", "int", true, false, 0, false, false, false⟩]).1
        (Value.vlist [Value.vint 1, Value.vint 2, Value.vint 3]) =
        some (WireItem.wInt 0x1cb5c415 ::
          WireItem.wInt (([Value.vint 1, Value.vint 2,
            Value.vint 3] : List Value).length : Int) :: ws) ∧
      ∀ tail, runRespGroup
          (write_onresponse_code
            ⟨"items", "int", true, false, 0, false, false, false⟩
            [⟨"items", "int", true, false, 0, false, false, false⟩]).1 none
          (WireItem.wInt 0x1cb5c415 ::
            WireItem.wInt (([Value.vint 1, Value.vint 2,
              Value.vint 3] : List Value).length : Int) :: (ws ++ tail)) =
        some (some (Value.vlist [Value.vint 1, Value.vint 2, Value.vint 3]),
          none, tail)) :=
  ⟨by decide,
    (claim_vector_framing (fun _ => Value.vnone)
      [⟨"items", "int", true, false, 0, false, false, false⟩]
      ⟨"items", "int", true, false, 0, false, false, false⟩
      rfl rfl rfl rfl [Value.vint 1, Value.vint 2, Value.vint 3]
      (by decide) none).2.2⟩

/-- C7.  For an argument of the `true` pseudo-type, the write statement is
`writer.write_int(0x3fedd339)` — one fixed 32-bit sentinel, consuming no
value from the argument (its semantics ignore the field's value entirely) —
and the read statement consumes exactly one 32-bit integer and assigns the
field the boolean result of comparing it with that same sentinel,
populating nothing else (the `flags` local and the rest of the stream are
untouched). -/
theorem claim_true_sentinel (env : String → Value) (args : List Argument)
    (a : Argument) (ht : a.argType = "true") (hvec : a.is_vector = false)
    (hind : a.flag_indicator = false) (hgd : a.generic_definition = false)
    (hf : a.is_flag = false) :
    write_onsend_code a args = ([SendStep.writeConst 0x3fedd339], a) ∧
    write_onresponse_code a args = ([ReadStep.readTrueV], a) ∧
    (∀ v, runSendStep env (SendStep.writeConst 0x3fedd339) v =
      some [WireItem.wInt 0x3fedd339]) ∧
    (∀ fs n rest, runRespStep ReadStep.readTrueV fs (WireItem.wInt n :: rest) =
      some (some (Value.vbool (n == 0x3fedd339)), fs, rest)) := by
  refine ⟨?_, ?_, fun v => ?_, fun fs n rest => ?_⟩
  · rw [onsend_scalar a args hvec hind hgd, hf]
    simp [scalarSendOf, ht]
  · rw [onresp_scalar a args hvec hind hgd, hf]
    simp [scalarReadOf, ht]
  · simp [runSendStep]
  · simp [runRespStep]

/-- C7 witness: a bare `true`-typed argument; reading back the sentinel
yields `True`, reading anything else yields `False`. -/
theorem claim_true_sentinel_witness :
    write_onsend_code ⟨"verified", "true", false, false, 0, false, false, false⟩
      [] = ([SendStep.writeConst 0x3fedd339],
        ⟨"verified", "true", false, false, 0, false, false, false⟩) ∧
    runRespStep ReadStep.readTrueV none [WireItem.wInt 0x3fedd339] =
      some (some (Value.vbool ((0x3fedd339 : Int) == 0x3fedd339)), none, []) :=
  ⟨(claim_true_sentinel (fun _ => Value.vnone) []
      ⟨"verified", "true", false, false, 0, false, false, false⟩
      rfl rfl rfl rfl rfl).1,
    (claim_true_sentinel (fun _ => Value.vnone) []
      ⟨"verified", "true", false, false, 0, false, false, false⟩
      rfl rfl rfl rfl rfl).2.2.2 none 0x3fedd339 []⟩

/-- Does any emitted `on_send` statement, inside presence guards included,
open a vector frame? -/
def sendHasVec : List SendStep → Bool
  | [] => false
  | SendStep.vecFrame _ :: _ => true
  | SendStep.flagGuard inner :: rest => sendHasVec inner || sendHasVec rest
  | _ :: rest => sendHasVec rest

/-- Does any emitted `on_response` statement, inside flag guards included,
read vector framing? -/
def readHasVec : List ReadStep → Bool
  | [] => false
  | ReadStep.vecRead _ :: _ => true
  | ReadStep.flagGuardR _ inner :: rest => readHasVec inner || readHasVec rest
  | _ :: rest => readHasVec rest

theorem sendHasVec_scalar (t : String) : sendHasVec [scalarSendOf t] = false := by
  rw [scalarSendOf]
  split_ifs <;> simp [sendHasVec]

theorem readHasVec_scalar (t : String) : readHasVec [scalarReadOf t] = false := by
  rw [scalarReadOf]
  split_ifs <;> simp [readHasVec]

/-- The statements emitted for a non-vector argument never open a vector
frame. -/
theorem sendHasVec_nonvec (b : Argument) (args : List Argument)
    (hvec : b.is_vector = false) :
    sendHasVec (write_onsend_code b args).1 = false := by
  rw [write_onsend_code]
  by_cases hgd : b.generic_definition = true <;>
    by_cases hind : b.flag_indicator = true <;>
      cases hff : b.is_flag <;>
        simp [hgd, hind, hvec, hff, sendHasVec, sendHasVec_scalar]

theorem readHasVec_nonvec (b : Argument) (args : List Argument)
    (hvec : b.is_vector = false) :
    readHasVec (write_onresponse_code b args).1 = false := by
  rw [write_onresponse_code]
  by_cases hgd : b.generic_definition = true <;>
    by_cases hind : b.flag_indicator = true <;>
      cases hff : b.is_flag <;>
        simp [hgd, hind, hvec, hff, readHasVec, readHasVec_scalar]

/-- C8.  For a vector argument, `write_onsend_code` and
`write_onresponse_code` each make exactly one recursive call with the
`is_vector` flag disabled: the emitted vector frame's inner statements are
precisely what the same routine emits for `{ a with is_vector := false }`,
that recursive output never re-triggers vector framing, and each routine
restores `is_vector` to its entry value before returning — the returned
argument object equals the input, every field included (also for the inner
recursive call itself). -/
theorem claim_vector_recursion (a : Argument) (args : List Argument) :
    (write_onsend_code a args).2 = a ∧
    (write_onresponse_code a args).2 = a ∧
    (a.is_vector = true → a.generic_definition = false →
      write_onsend_code a args =
        ((if a.is_flag then [SendStep.flagGuard [SendStep.vecFrame
            (write_onsend_code { a with is_vector := false } args).1]]
          else [SendStep.vecFrame
            (write_onsend_code { a with is_vector := false } args).1]), a) ∧
      write_onresponse_code a args =
        ((if a.is_flag then [ReadStep.flagGuardR a.flag_index [ReadStep.vecRead
            (write_onresponse_code { a with is_vector := false } args).1]]
          else [ReadStep.vecRead
            (write_onresponse_code { a with is_vector := false } args).1]), a) ∧
      (write_onsend_code { a with is_vector := false } args).2 =
        { a with is_vector := false } ∧
      (write_onresponse_code { a with is_vector := false } args).2 =
        { a with is_vector := false } ∧
      sendHasVec (write_onsend_code { a with is_vector := false } args).1
        = false ∧
      readHasVec (write_onresponse_code { a with is_vector := false } args).1
        = false) :=
  ⟨onsend_snd a args, onresp_snd a args, fun hvec hgd =>
    ⟨onsend_vec a args hvec hgd, onresp_vec a args hvec hgd,
      onsend_snd _ args, onresp_snd _ args,
      sendHasVec_nonvec _ args rfl, readHasVec_nonvec _ args rfl⟩⟩

/-- C8 witness: a plain `Vector<long>` argument. -/
theorem claim_vector_recursion_witness :
    (write_onsend_code ⟨"ids", "long", true, false, 0, false, false, false⟩
      [⟨"ids", "long", true, false, 0, false, false, false⟩]).2 =
      ⟨"ids", "long", true, false, 0, false, false, false⟩ ∧
    sendHasVec (write_onsend_code
      ⟨"ids", "long", false, false, 0, false, false, false⟩
      [⟨"ids", "long", true, false, 0, false, false, false⟩]).1 = false :=
  ⟨(claim_vector_recursion ⟨"ids", "long", true, false, 0, false, false, false⟩
      [⟨"ids", "long", true, false, 0, false, false, false⟩]).1,
    ((claim_vector_recursion ⟨"ids", "long", true, false, 0, false, false, false⟩
      [⟨"ids", "long", true, false, 0, false, false, false⟩]).2.2 rfl
      rfl).2.2.2.2.1⟩

/-- Stable sorting by the boolean key `is_flag` is exactly the stable
partition: the non-flag arguments in order, then the flag arguments in
order. -/
theorem mergeSort_flagLE (l : List Argument) :
    l.mergeSort flagLE =
      l.filter (fun a => !a.is_flag) ++ l.filter (fun a => a.is_flag) := by
  have htrans : ∀ x y z : Argument, flagLE x y → flagLE y z → flagLE x z := by
    intro x y z
    rw [flagLE, flagLE, flagLE]
    cases x.is_flag <;> cases y.is_flag <;> cases z.is_flag <;> simp
  have htotal : ∀ x y : Argument, flagLE x y || flagLE y x := by
    intro x y
    rw [flagLE, flagLE]
    cases x.is_flag <;> cases y.is_flag <;> simp
  induction l with
  | nil => simp
  | cons a l ih =>
    obtain ⟨l₁, l₂, h1, h2, h3⟩ := List.mergeSort_cons htrans htotal a l
    cases hf : a.is_flag with
    | false =>
      have hl1 : l₁ = [] := by
        cases hc : l₁ with
        | nil => rfl
        | cons c l₁' =>
          have hmc := h3 c (by rw [hc]; exact List.mem_cons_self c l₁')
          rw [flagLE, hf] at hmc
          simp at hmc
      subst hl1
      simp only [List.nil_append] at h1 h2
      rw [h1, h2.symm.trans ih]
      simp [hf]
    | true =>
      have hsorted := List.sorted_mergeSort htrans htotal (a :: l)
      rw [h1] at hsorted
      have hl2 : ∀ x ∈ l₂, x.is_flag = true := by
        intro x hx
        have hpa := (List.pairwise_append.mp hsorted).2.1
        have := (List.pairwise_cons.mp hpa).1 x hx
        rw [flagLE, hf] at this
        simpa using this
      have hl1 : ∀ x ∈ l₁, x.is_flag = false := by
        intro x hx
        have := h3 x hx
        rw [flagLE, hf] at this
        simpa using this
      have e1 : (l₁ ++ l₂).filter (fun a => !a.is_flag) = l₁ := by
        rw [List.filter_append,
          List.filter_eq_self.mpr (fun x hx => by simp [hl1 x hx]),
          List.filter_eq_nil_iff.mpr (fun x hx => by simp [hl2 x hx])]
        simp
      have e2 : (l₁ ++ l₂).filter (fun a => a.is_flag) = l₂ := by
        rw [List.filter_append,
          List.filter_eq_nil_iff.mpr (fun x hx => by simp [hl1 x hx]),
          List.filter_eq_self.mpr (fun x hx => hl2 x hx)]
        simp
      have hpart : l₁ ++ l₂ =
          l.filter (fun a => !a.is_flag) ++ l.filter (fun a => a.is_flag) :=
        h2.symm.trans ih
      have hAA : (l.filter (fun a => !a.is_flag)).filter (fun a => !a.is_flag)
          = l.filter (fun a => !a.is_flag) :=
        List.filter_eq_self.mpr (fun x hx => (List.mem_filter.mp hx).2)
      have hBA : (l.filter (fun a => a.is_flag)).filter (fun a => !a.is_flag)
          = [] :=
        List.filter_eq_nil_iff.mpr (fun x hx => by
          have h := (List.mem_filter.mp hx).2
          simp [h])
      have hAB : (l.filter (fun a => !a.is_flag)).filter (fun a => a.is_flag)
          = [] :=
        List.filter_eq_nil_iff.mpr (fun x hx => by
          have h := (List.mem_filter.mp hx).2
          simp_all)
      have hBB : (l.filter (fun a => a.is_flag)).filter (fun a => a.is_flag)
          = l.filter (fun a => a.is_flag) :=
        List.filter_eq_self.mpr (fun x hx => (List.mem_filter.mp hx).2)
      have hl1eq : l₁ = l.filter (fun a => !a.is_flag) := by
        calc l₁ = (l₁ ++ l₂).filter (fun a => !a.is_flag) := e1.symm
        _ = ((l.filter (fun a => !a.is_flag)).filter (fun a => !a.is_flag)) ++
            ((l.filter (fun a => a.is_flag)).filter (fun a => !a.is_flag)) := by
              rw [hpart, List.filter_append]
        _ = l.filter (fun a => !a.is_flag) := by rw [hAA, hBA, List.append_nil]
      have hl2eq : l₂ = l.filter (fun a => a.is_flag) := by
        calc l₂ = (l₁ ++ l₂).filter (fun a => a.is_flag) := e2.symm
        _ = ((l.filter (fun a => !a.is_flag)).filter (fun a => a.is_flag)) ++
            ((l.filter (fun a => a.is_flag)).filter (fun a => a.is_flag)) := by
              rw [hpart, List.filter_append]
        _ = l.filter (fun a => a.is_flag) := by rw [hAB, hBB, List.nil_append]
      rw [h1, hl1eq, hl2eq]
      simp [hf]

/-- C9.  The generated constructor's parameter list differs from wire order:
flag-indicator and generic-definition arguments are excluded entirely, and
the remaining arguments are reordered stably so that all non-flag-gated
arguments come first (in declaration order) and every flag-gated argument
follows them (in declaration order) with a `=None` default — while the
`on_send` / `on_response` step order still follows the original declaration
order. -/
theorem claim_init_params (t : TLObject) :
    initParams t =
      (t.args.filter (fun a => !a.is_flag && !a.flag_indicator &&
        !a.generic_definition)).map (fun a => a.name) ++
      (t.args.filter (fun a => a.is_flag && !a.flag_indicator &&
        !a.generic_definition)).map (fun a => a.name ++ "=None") ∧
    onSendSteps t = SendStep.writeConst t.id ::
      t.args.flatMap (fun a => (write_onsend_code a t.args).1) ∧
    (t.is_function = false → onResponseBody t = RespBody.argSteps
      (t.args.map (fun a => (a.name, (write_onresponse_code a t.args).1)))) := by
  refine ⟨?_, rfl, fun hfn => by rw [onResponseBody, hfn]; simp⟩
  rw [initParams, mergeSort_flagLE]
  rw [List.filter_append, List.map_append]
  congr 1
  · rw [List.filter_filter, List.filter_filter]
    rw [List.filter_congr (fun a _ => by
      show ((!a.flag_indicator && !a.generic_definition) && !a.is_flag &&
        !a.flag_indicator) =
        (!a.is_flag && !a.flag_indicator && !a.generic_definition)
      cases a.is_flag <;> cases a.flag_indicator <;>
        cases a.generic_definition <;> rfl)]
    apply List.map_congr_left
    intro a ha
    have : a.is_flag = false := by
      have := (List.mem_filter.mp ha).2
      cases hfl : a.is_flag
      · rfl
      · rw [hfl] at this; simp at this
    simp [this]
  · rw [List.filter_filter, List.filter_filter]
    rw [List.filter_congr (fun a _ => by
      show ((!a.flag_indicator && !a.generic_definition) && a.is_flag &&
        !a.flag_indicator) =
        (a.is_flag && !a.flag_indicator && !a.generic_definition)
      cases a.is_flag <;> cases a.flag_indicator <;>
        cases a.generic_definition <;> rfl)]
    apply List.map_congr_left
    intro a ha
    have : a.is_flag = true := by
      have := (List.mem_filter.mp ha).2
      cases hfl : a.is_flag
      · rw [hfl] at this; simp at this
      · rfl
    simp [this]

/-- C9 witness: mixed argument list — plain `q`, indicator, flagged `n`,
generic definition — yields `[q, n=None]` as constructor parameters. -/
theorem claim_init_params_witness :
    initParams ⟨"mix", none, 3, false,
      [⟨"q", "int", false, false, 0, false, false, false⟩,
        ⟨"flags", "#", false, false, 0, true, false, false⟩,
        ⟨"n", "int", false, true, 0, false, false, false⟩,
        ⟨"X", "Type", false, false, 0, false, true, false⟩]⟩ =
      (([⟨"q", "int", false, false, 0, false, false, false⟩,
        ⟨"flags", "#", false, false, 0, true, false, false⟩,
        ⟨"n", "int", false, true, 0, false, false, false⟩,
        ⟨"X", "Type", false, false, 0, false, true, false⟩] :
          List Argument).filter (fun a => !a.is_flag && !a.flag_indicator &&
        !a.generic_definition)).map (fun a => a.name) ++
      (([⟨"q", "int", false, false, 0, false, false, false⟩,
        ⟨"flags", "#", false, false, 0, true, false, false⟩,
        ⟨"n", "int", false, true, 0, false, false, false⟩,
        ⟨"X", "Type", false, false, 0, false, true, false⟩] :
          List Argument).filter (fun a => a.is_flag && !a.flag_indicator &&
        !a.generic_definition)).map (fun a => a.name ++ "=None") :=
  (claim_init_params ⟨"mix", none, 3, false,
    [⟨"q", "int", false, false, 0, false, false, false⟩,
      ⟨"flags", "#", false, false, 0, true, false, false⟩,
      ⟨"n", "int", false, true, 0, false, false, false⟩,
      ⟨"X", "Type", false, false, 0, false, true, false⟩]⟩).1

end TLGen
